import Mathlib

/-!
Verification of the installer-wizard automation scripts
(`tehtris_edr_installer_minimal.py`, `tehtris_edr_uninstaller.py`,
`nmap_installer_automation.py`).

Each Lean definition is a shallow embedding of one Python function of the
repository; the GUI/OS inputs (button texts scanned from the window, edit
field counts, process lists, registry strings, window presence) become
explicit arguments, exactly as the corresponding Python function reads them
from the environment.
-/

set_option maxRecDepth 4000

/-- Embedding of the Python idiom `any(btn in buttons for btn in keys)`:
some element of `keys` occurs in the scanned `buttons` list. -/
def hasAny (buttons keys : List String) : Bool :=
  decide (∃ k ∈ keys, k ∈ buttons)

/-- Python `str.startswith(pre)`. -/
def startsWithStr (pre s : String) : Bool :=
  pre.data.isPrefixOf s.data

namespace EdrInstaller

/-- `TehtrisEDRInstaller._has_edit_fields`: true when the scanned window
contains at least two edit controls (`field_count >= 2`). -/
def has_edit_fields (editFieldCount : Nat) : Bool :=
  decide (2 ≤ editFieldCount)

/-- `TehtrisEDRInstaller.detect_current_step`: classifies the current wizard
step from the scanned button texts and the edit-field count. -/
def detect_current_step (buttons : List String) (editFieldCount : Nat) : String :=
  if hasAny buttons ["install", "installing"] then "installation"
  else if hasAny buttons ["finish", "close", "done"] then "complete"
  else if hasAny buttons ["i accept the terms in the license agreement",
      "i do not accept the terms in the license agreement"] then "license"
  else if hasAny buttons ["next", "next >", "continue"]
      && hasAny buttons ["< back", "back"]
      && hasAny buttons ["cancel"] then
    if has_edit_fields editFieldCount then "activation" else "welcome"
  else "unknown"

end EdrInstaller

namespace EdrUninstaller

/-- `TehtrisEDRUninstaller.detect_current_step`: classifies the current
uninstaller wizard step from the scanned buttons, radio buttons, text-area
count and the detected EDR version. -/
def detect_current_step (version : String) (buttons radios : List String)
    (textAreas : Nat) : String :=
  if hasAny buttons ["finish", "close", "done", "exit"] then "complete"
  else if hasAny buttons ["remove", "uninstall", "delete"] then "remove"
  else if hasAny buttons ["yes", "ok", "confirm"] then "confirmation"
  else if startsWithStr "2." version || !(startsWithStr "1." version) then
    if hasAny buttons ["back", "< back"]
        && hasAny buttons ["next", "next >", "continue"]
        && hasAny buttons ["cancel"]
        && decide (2 ≤ radios.length) && decide (1 ≤ textAreas) then "verification"
    else if hasAny buttons ["back", "< back"]
        && hasAny buttons ["next", "next >", "continue"]
        && hasAny buttons ["cancel"]
        && decide (radios.length = 0) && decide (textAreas = 0) then "welcome"
    else "unknown"
  else if hasAny buttons ["next", "next >", "continue"] then "welcome"
  else "unknown"

end EdrUninstaller

/-- C1: the frozen claim says that any signature containing a
completion-labelled control (finish, close, done, exit) classifies as
`complete` regardless of other controls.  The installer classifier checks
`install`/`installing` first and does not know `exit`: with buttons
`["finish", "install"]` it answers `installation`, and with `["exit"]` it
answers `unknown`. -/
theorem detect_complete_counterexample :
    EdrInstaller.detect_current_step ["finish", "install"] 0 = "installation" ∧
    EdrInstaller.detect_current_step ["exit"] 0 = "unknown" := by
  constructor <;> decide

/-- C1 (amended): the uninstaller classifier maps every signature containing
finish/close/done/exit to `complete` regardless of all other controls; the
installer classifier maps a signature containing finish/close/done to
`complete` provided no install/installing button is also present (`exit` is
not recognized by the installer). -/
theorem detect_complete_amended (version : String) (buttons radios : List String)
    (textAreas editCount : Nat) :
    (hasAny buttons ["finish", "close", "done", "exit"] = true →
      EdrUninstaller.detect_current_step version buttons radios textAreas = "complete") ∧
    (hasAny buttons ["finish", "close", "done"] = true →
      hasAny buttons ["install", "installing"] = false →
      EdrInstaller.detect_current_step buttons editCount = "complete") := by
  constructor
  · intro h
    simp [EdrUninstaller.detect_current_step, h]
  · intro h hni
    simp [EdrInstaller.detect_current_step, h, hni]

/-- Witness for `detect_complete_amended` at a concrete signature. -/
theorem detect_complete_amended_witness :
    EdrUninstaller.detect_current_step "2.x.x" ["exit", "install"] [] 0 = "complete" ∧
    EdrInstaller.detect_current_step ["finish", "cancel"] 0 = "complete" :=
  ⟨(detect_complete_amended "2.x.x" ["exit", "install"] [] 0 0).1 (by decide),
   (detect_complete_amended "2.x.x" ["finish", "cancel"] [] 0 0).2 (by decide) (by decide)⟩

/-- C5: a signature whose button set is exactly a next-class button, a
back-class button, and `cancel` (any order), with zero radio buttons and
zero edit fields, classifies as `welcome` in both the installer and the
uninstaller classifier (any detected version). -/
theorem nav_triple_classifies_welcome (version n b : String) (buttons : List String)
    (hn : n ∈ ["next", "next >", "continue"]) (hb : b ∈ ["< back", "back"])
    (hbut : ∀ x, x ∈ buttons ↔ (x = n ∨ x = b ∨ x = "cancel")) :
    EdrInstaller.detect_current_step buttons 0 = "welcome" ∧
    EdrUninstaller.detect_current_step version buttons [] 0 = "welcome" := by
  have key : ∀ keys : List String, hasAny buttons keys =
      decide (∃ k ∈ keys, k = n ∨ k = b ∨ k = "cancel") := by
    intro keys
    simp only [hasAny, hbut]
  fin_cases hn <;> fin_cases hb <;>
    · constructor
      · simp [EdrInstaller.detect_current_step, key, EdrInstaller.has_edit_fields]
      · cases h1 : startsWithStr "1." version <;> cases h2 : startsWithStr "2." version <;>
          simp [EdrUninstaller.detect_current_step, key, h1, h2]

/-- Witness for `nav_triple_classifies_welcome` at the concrete triple
`["next >", "< back", "cancel"]`. -/
theorem nav_triple_classifies_welcome_witness :
    EdrInstaller.detect_current_step ["next >", "< back", "cancel"] 0 = "welcome" ∧
    EdrUninstaller.detect_current_step "2.x.x" ["next >", "< back", "cancel"] [] 0
      = "welcome" :=
  nav_triple_classifies_welcome "2.x.x" "next >" "< back" _
    (by decide) (by decide) (by intro x; simp)

/-- C9: for a signature carrying the generic navigation triple and none of
the install/completion/license buttons, the installer classifier answers
`activation` exactly when at least two edit fields are present, and
`welcome` otherwise (in particular with exactly one edit field). -/
theorem activation_iff_two_edit_fields (buttons : List String) (editCount : Nat)
    (hnext : hasAny buttons ["next", "next >", "continue"] = true)
    (hback : hasAny buttons ["< back", "back"] = true)
    (hcancel : hasAny buttons ["cancel"] = true)
    (hinst : hasAny buttons ["install", "installing"] = false)
    (hfin : hasAny buttons ["finish", "close", "done"] = false)
    (hlic : hasAny buttons ["i accept the terms in the license agreement",
      "i do not accept the terms in the license agreement"] = false) :
    EdrInstaller.detect_current_step buttons editCount =
      (if 2 ≤ editCount then "activation" else "welcome") := by
  simp only [EdrInstaller.detect_current_step, EdrInstaller.has_edit_fields,
    hnext, hback, hcancel, hinst, hfin, hlic]
  by_cases h : 2 ≤ editCount <;> simp [h]

/-- Witness for `activation_iff_two_edit_fields`: one edit field on the
navigation triple still classifies as `welcome`. -/
theorem activation_iff_two_edit_fields_witness :
    EdrInstaller.detect_current_step ["next >", "< back", "cancel"] 1 = "welcome" := by
  have h := activation_iff_two_edit_fields ["next >", "< back", "cancel"] 1
    (by decide) (by decide) (by decide) (by decide) (by decide) (by decide)
  simpa using h

namespace EdrInstaller

/-- The wizard step vocabulary returned by `detect_current_step`. -/
inductive Step
  | welcome
  | license
  | activation
  | installation
  | complete
  | unknown
deriving DecidableEq, Repr

/-- The driver's `expected_sequence = ['welcome', 'license', 'activation',
'installation']`. -/
def expected_sequence : List Step :=
  [Step.welcome, Step.license, Step.activation, Step.installation]

/-- Position of a step in `expected_sequence` (`expected_sequence.index`),
`none` when the step is not in the ordered sequence. -/
def seqIndex : Step → Option Nat
  | Step.welcome => some 0
  | Step.license => some 1
  | Step.activation => some 2
  | Step.installation => some 3
  | _ => none

/-- The environment inputs consumed by one cycle of
`_run_optimized_installation_steps`: the classified step, whether the step
handler for the expected step succeeds, and what `detect_current_step`
reports when the license handler fails. -/
structure TickIn where
  observed : Step
  handlerOk : Bool
  redetect : Step
deriving DecidableEq, Repr

/-- Outcome of one cycle of the driver loop: either the function returns
(`halt`) or the loop continues with a new `current_step_index`. -/
inductive CycleOut
  | halt (success : Bool)
  | next (idx : Nat)
deriving DecidableEq, Repr

/-- One body execution of the `while` loop of
`_run_optimized_installation_steps`, at `current_step_index = idx`. -/
def stepCycle (t : TickIn) (idx : Nat) : CycleOut :=
  let expected := expected_sequence.getD idx Step.unknown
  if t.observed = Step.complete then CycleOut.halt true
  else if t.observed = expected then
    match expected with
    | Step.welcome =>
      if t.handlerOk then CycleOut.next (idx + 1) else CycleOut.halt false
    | Step.license =>
      if t.handlerOk then CycleOut.next (idx + 1)
      else if t.redetect = Step.welcome then CycleOut.next 0
      else CycleOut.halt false
    | Step.activation =>
      if t.handlerOk then CycleOut.next (idx + 1) else CycleOut.halt false
    | _ =>
      -- `handle_installation` always returns True in the source
      CycleOut.next (idx + 1)
  else if t.observed = Step.welcome ∧ expected ≠ Step.welcome then CycleOut.next 0
  else
    match seqIndex t.observed with
    | some j => if idx < j then CycleOut.next j else CycleOut.next idx
    | none => CycleOut.next idx

/-- `max_cycles = 30` from `_run_optimized_installation_steps`. -/
def max_cycles : Nat := 30

/-- The driver loop with `fuel` remaining polling cycles, fed by the input
stream `ins`; returns the boolean result of
`_run_optimized_installation_steps` together with the number of cycles
executed.  `fuel = 0` is the `current_cycle >= max_cycles` timeout exit,
which returns `False`. -/
def runSteps (ins : Nat → TickIn) : Nat → Nat → Bool × Nat
  | 0, _ => (false, 0)
  | fuel + 1, idx =>
    if expected_sequence.length ≤ idx then (true, 0)
    else
      match stepCycle (ins 0) idx with
      | CycleOut.halt b => (b, 1)
      | CycleOut.next idx' =>
        let r := runSteps (fun n => ins (n + 1)) fuel idx'
        (r.1, r.2 + 1)

/-- `TehtrisEDRInstaller._run_optimized_installation_steps`, driven by the
stream `ins` of per-cycle environment inputs. -/
def run_optimized_installation_steps (ins : Nat → TickIn) : Bool × Nat :=
  runSteps ins max_cycles 0

/-- An `unknown` classification leaves the loop body without halting and
without touching `current_step_index`. -/
lemma stepCycle_of_unknown (t : TickIn) (idx : Nat)
    (hidx : idx < expected_sequence.length) (hobs : t.observed = Step.unknown) :
    stepCycle t idx = CycleOut.next idx := by
  rcases t with ⟨obs, hok, red⟩
  simp only at hobs
  subst hobs
  have h4 : idx < 4 := by simpa [expected_sequence] using hidx
  interval_cases idx <;> rfl

/-- The cycle count of `runSteps` never exceeds the fuel. -/
lemma runSteps_cycles_le (fuel : Nat) : ∀ (ins : Nat → TickIn) (idx : Nat),
    (runSteps ins fuel idx).2 ≤ fuel := by
  induction fuel with
  | zero => intro ins idx; simp [runSteps]
  | succ f ih =>
    intro ins idx
    simp only [runSteps]
    by_cases h : expected_sequence.length ≤ idx
    · simp [h]
    · simp only [h, if_false]
      cases stepCycle (ins 0) idx with
      | halt b => simp
      | next idx' =>
        simpa using ih (fun n => ins (n + 1)) idx'

/-- Under an all-`unknown` observation stream the loop spins in place and
the timeout exit reports `false`. -/
lemma runSteps_unknown_false (fuel : Nat) : ∀ (ins : Nat → TickIn) (idx : Nat),
    (∀ n, (ins n).observed = Step.unknown) → idx < expected_sequence.length →
    (runSteps ins fuel idx).1 = false := by
  induction fuel with
  | zero => intro ins idx _ _; simp [runSteps]
  | succ f ih =>
    intro ins idx hunk hidx
    have hlen : ¬ expected_sequence.length ≤ idx := by omega
    simp only [runSteps, hlen, if_false]
    rw [stepCycle_of_unknown (ins 0) idx hidx (hunk 0)]
    simpa using ih (fun n => ins (n + 1)) idx (fun n => hunk (n + 1)) hidx

end EdrInstaller

/-- C4: the driver loop `_run_optimized_installation_steps` terminates — it
executes at most `max_cycles = 30` polling cycles for every input stream —
and when the cycle ceiling is exhausted without reaching `complete` or the
end of the expected sequence (for instance when every tick classifies as
`unknown`) it returns `False` rather than hanging or raising. -/
theorem driver_bounded_cycles_and_timeout_failure (ins : Nat → EdrInstaller.TickIn) :
    (EdrInstaller.run_optimized_installation_steps ins).2 ≤ EdrInstaller.max_cycles ∧
    ((∀ n, (ins n).observed = EdrInstaller.Step.unknown) →
      (EdrInstaller.run_optimized_installation_steps ins).1 = false) := by
  constructor
  · exact EdrInstaller.runSteps_cycles_le EdrInstaller.max_cycles ins 0
  · intro hunk
    exact EdrInstaller.runSteps_unknown_false EdrInstaller.max_cycles ins 0 hunk
      (by simp [EdrInstaller.expected_sequence])

/-- Witness for `driver_bounded_cycles_and_timeout_failure` on the constant
all-`unknown` stream. -/
theorem driver_bounded_cycles_and_timeout_failure_witness :
    (EdrInstaller.run_optimized_installation_steps
      (fun _ => ⟨EdrInstaller.Step.unknown, true, EdrInstaller.Step.unknown⟩)).2
        ≤ EdrInstaller.max_cycles ∧
    (EdrInstaller.run_optimized_installation_steps
      (fun _ => ⟨EdrInstaller.Step.unknown, true, EdrInstaller.Step.unknown⟩)).1 = false :=
  ⟨(driver_bounded_cycles_and_timeout_failure _).1,
   (driver_bounded_cycles_and_timeout_failure _).2 (fun _ => rfl)⟩

/-- C2: the frozen claim says every strictly-earlier observation resets
`expected_step_index` to 0.  Counterexample: observing `license`
(sequence position 1) while expecting `installation` (`idx = 3`) leaves
the index at 3 — the driver only waits; it does not reset. -/
theorem regression_reset_counterexample :
    EdrInstaller.seqIndex EdrInstaller.Step.license = some 1 ∧
    EdrInstaller.stepCycle
      ⟨EdrInstaller.Step.license, true, EdrInstaller.Step.unknown⟩ 3
      = EdrInstaller.CycleOut.next 3 ∧
    EdrInstaller.CycleOut.next 3 ≠ EdrInstaller.CycleOut.next 0 := by
  refine ⟨rfl, rfl, ?_⟩
  decide

/-- C2 (amended): the driver resets `expected_step_index` to 0 only when
the strictly-earlier observation is `welcome`; any other strictly-earlier
observation (e.g. `license` while expecting `installation`) leaves the
index unchanged for that cycle. -/
theorem regression_reset_only_on_welcome (t : EdrInstaller.TickIn) (idx j : Nat)
    (hidx : idx < EdrInstaller.expected_sequence.length)
    (hj : EdrInstaller.seqIndex t.observed = some j) (hlt : j < idx) :
    EdrInstaller.stepCycle t idx =
      (if t.observed = EdrInstaller.Step.welcome then EdrInstaller.CycleOut.next 0
       else EdrInstaller.CycleOut.next idx) := by
  rcases t with ⟨obs, hok, red⟩
  simp only at hj ⊢
  have h4 : idx < 4 := by simpa [EdrInstaller.expected_sequence] using hidx
  cases obs <;> simp only [EdrInstaller.seqIndex, Option.some.injEq] at hj <;>
    first
    | (subst hj; interval_cases idx <;> simp_all <;> rfl)
    | exact absurd hj (by simp)

/-- Witness for `regression_reset_only_on_welcome`: observing `welcome`
while expecting `activation` (`idx = 2`) resets the index to 0. -/
theorem regression_reset_only_on_welcome_witness :
    EdrInstaller.stepCycle
      ⟨EdrInstaller.Step.welcome, true, EdrInstaller.Step.unknown⟩ 2
      = EdrInstaller.CycleOut.next 0 := by
  have h := regression_reset_only_on_welcome
    ⟨EdrInstaller.Step.welcome, true, EdrInstaller.Step.unknown⟩ 2 0
    (by decide) (by decide) (by decide)
  simpa using h

/-- C6: a cycle that classifies as `unknown` neither halts the driver nor
mutates `expected_step_index`; the loop just waits and re-polls (bounded by
the cycle budget, see the cycle-count bound proved for C4). -/
theorem unknown_tick_preserves_index (t : EdrInstaller.TickIn) (idx : Nat)
    (hidx : idx < EdrInstaller.expected_sequence.length)
    (hobs : t.observed = EdrInstaller.Step.unknown) :
    EdrInstaller.stepCycle t idx = EdrInstaller.CycleOut.next idx :=
  EdrInstaller.stepCycle_of_unknown t idx hidx hobs

/-- Witness for `unknown_tick_preserves_index` at `idx = 2`. -/
theorem unknown_tick_preserves_index_witness :
    EdrInstaller.stepCycle
      ⟨EdrInstaller.Step.unknown, true, EdrInstaller.Step.unknown⟩ 2
      = EdrInstaller.CycleOut.next 2 :=
  unknown_tick_preserves_index _ 2 (by decide) rfl

namespace NmapAuto

/-- The two completion flags carried across polling ticks by
`NmapInstaller.handle_concurrent_installers`. -/
structure ConcState where
  nmap_complete : Bool
  npcap_complete : Bool
deriving DecidableEq, Repr

/-- One enumeration pass: whether a primary (Nmap Setup) window and a
secondary (Npcap) window are visible this tick. -/
structure WinObs where
  nmapPresent : Bool
  npcapPresent : Bool
deriving DecidableEq, Repr

/-- Which window handler (if any) one loop iteration invokes. -/
inductive Handled
  | none
  | nmapWin
  | npcapWin
deriving DecidableEq, Repr

/-- One iteration of the `while` loop of `handle_concurrent_installers`:
returns the handler invoked, the updated completion flags, and whether the
loop `break`s this tick.  The Npcap branch ends with `continue`, so it
skips both completion latches and the break check. -/
def tick (st : ConcState) (w : WinObs) : Handled × ConcState × Bool :=
  if w.npcapPresent && !st.npcap_complete then
    (Handled.npcapWin, st, false)
  else
    let h := if w.nmapPresent && !st.nmap_complete && !w.npcapPresent then
      Handled.nmapWin else Handled.none
    let st1 : ConcState :=
      { nmap_complete :=
          if !w.nmapPresent && !st.nmap_complete then true else st.nmap_complete,
        npcap_complete :=
          if !w.npcapPresent && !st.npcap_complete then true else st.npcap_complete }
    (h, st1, !w.nmapPresent && !w.npcapPresent)

/-- Run `tick` over a list of enumeration passes starting from `st`,
recording the handler invoked and the state after each tick; stops early
when a tick breaks out of the loop. -/
def tickTrace : ConcState → List WinObs → List (Handled × ConcState)
  | _, [] => []
  | st, w :: ws =>
    let r := tick st w
    (r.1, r.2.1) :: (if r.2.2 then [] else tickTrace r.2.1 ws)

end NmapAuto

/-- C3: the frozen claim says that on every tick where both windows are
visible the secondary (Npcap) handler is invoked.  Counterexample: after
a tick in which the Npcap window was absent (latching
`npcap_complete := true`), a tick with both windows present invokes no
handler at all — the Npcap branch is disabled by the latch and the Nmap
branch is blocked by the Npcap window's presence. -/
theorem concurrent_priority_counterexample :
    (NmapAuto.tickTrace ⟨false, false⟩ [⟨true, false⟩, ⟨true, true⟩]).map (·.1)
      = [NmapAuto.Handled.nmapWin, NmapAuto.Handled.none] := by
  decide

/-- C3 (amended): on any tick in which a secondary (Npcap) window is found,
the primary (Nmap) handler is never invoked; when both windows are present
the primary's completion flag is unchanged that tick and the secondary's
handler is invoked exactly when the secondary has not already been latched
complete. -/
theorem concurrent_priority_exclusivity (st : NmapAuto.ConcState) (w : NmapAuto.WinObs)
    (hs : w.npcapPresent = true) :
    (NmapAuto.tick st w).1 ≠ NmapAuto.Handled.nmapWin ∧
    (w.nmapPresent = true →
      ((NmapAuto.tick st w).2.1.nmap_complete = st.nmap_complete ∧
       ((NmapAuto.tick st w).1 = NmapAuto.Handled.npcapWin ↔
         st.npcap_complete = false))) := by
  rcases st with ⟨nc, pc⟩
  rcases w with ⟨np, pp⟩
  simp only at hs
  subst hs
  cases nc <;> cases pc <;> cases np <;> simp [NmapAuto.tick]

/-- Witness for `concurrent_priority_exclusivity` with both windows present
and a fresh state. -/
theorem concurrent_priority_exclusivity_witness :
    (NmapAuto.tick ⟨false, false⟩ ⟨true, true⟩).1 ≠ NmapAuto.Handled.nmapWin ∧
    (NmapAuto.tick ⟨false, false⟩ ⟨true, true⟩).2.1.nmap_complete = false ∧
    (NmapAuto.tick ⟨false, false⟩ ⟨true, true⟩).1 = NmapAuto.Handled.npcapWin :=
  ⟨(concurrent_priority_exclusivity ⟨false, false⟩ ⟨true, true⟩ rfl).1,
   ((concurrent_priority_exclusivity ⟨false, false⟩ ⟨true, true⟩ rfl).2 rfl).1,
   (((concurrent_priority_exclusivity ⟨false, false⟩ ⟨true, true⟩ rfl).2 rfl).2).mpr rfl⟩

/-- Contiguous-substring test on character lists (the Python `in` operator
on strings). -/
def infixOf (n : List Char) : List Char → Bool
  | [] => n.isEmpty
  | c :: t => n.isPrefixOf (c :: t) || infixOf n t

/-- Python `needle in hay` for strings. -/
def strIn (needle hay : String) : Bool := infixOf needle.data hay.data

/-- Python `str.lower()` (ASCII case folding, as in the command strings and
filenames this program handles). -/
def toLowerStr (s : String) : String := String.mk (s.data.map Char.toLower)

/-- Python `str.strip()`: remove leading and trailing whitespace. -/
def stripStr (s : String) : String :=
  String.mk (((s.data.dropWhile Char.isWhitespace).reverse.dropWhile
    Char.isWhitespace).reverse)

/-- Number of positions of `hay` at which `n` occurs as a contiguous
substring. -/
def countSub (n : List Char) : List Char → Nat
  | [] => 0
  | c :: t => (if n.isPrefixOf (c :: t) then 1 else 0) + countSub n t

namespace EdrUninstaller

/-- The `silent_flags` list tried for EXE uninstallers in
`_add_silent_flags_v1`. -/
def exe_silent_flags : List String := [" /S", " /SILENT", " /VERYSILENT", " /q", " /quiet"]

/-- `TehtrisEDRUninstaller._add_silent_flags_v1`: decorates a
registry-sourced uninstall command string with silent flags. -/
def add_silent_flags_v1 (s : String) : String :=
  if strIn "msiexec" (toLowerStr s) then
    if strIn "/quiet" (toLowerStr s) then s
    else s ++ " /quiet /norestart"
  else
    let sc := exe_silent_flags.foldl
      (fun acc flag =>
        if strIn (stripStr (toLowerStr flag)) (toLowerStr s) then acc else acc ++ flag) s
    let sc1 := if strIn "/SUPPRESSMSGBOXES" sc then sc else sc ++ " /SUPPRESSMSGBOXES"
    if strIn "/NORESTART" sc1 then sc1 else sc1 ++ " /NORESTART"

/-- Concatenation of a list of strings. -/
def concatAll : List String → String
  | [] => ""
  | f :: rest => f ++ concatAll rest

/-- A conditional-append fold appends exactly the flags whose test fails. -/
lemma foldl_flags (p : String → Bool) (flags : List String) : ∀ acc : String,
    flags.foldl (fun a f => if p f then a else a ++ f) acc
      = acc ++ concatAll (flags.filter (fun f => !(p f))) := by
  induction flags with
  | nil =>
    intro acc
    apply String.ext
    simp [concatAll, List.foldl_nil, String.data_append]
  | cons f rest ih =>
    intro acc
    by_cases hp : p f
    · simpa [List.foldl_cons, List.filter_cons, hp] using ih acc
    · have hfil : List.filter (fun g => !(p g)) (f :: rest)
          = f :: List.filter (fun g => !(p g)) rest := by
        simp [List.filter_cons, hp]
      rw [List.foldl_cons, if_neg hp, ih (acc ++ f), hfil]
      apply String.ext
      simp [concatAll, String.data_append, List.append_assoc]

end EdrUninstaller

/-- C7: the frozen claim says each silent flag is appended iff it is not
already present, so the result never duplicates a flag.  Counterexample: on
the msiexec command `"msiexec /x /norestart"`, which already contains
`/norestart`, the pair `" /quiet /norestart"` is appended anyway (only
`/quiet` is checked), so the result contains `/norestart` twice. -/
theorem add_silent_flags_counterexample :
    strIn "/norestart" "msiexec /x /norestart" = true ∧
    EdrUninstaller.add_silent_flags_v1 "msiexec /x /norestart"
      = "msiexec /x /norestart /quiet /norestart" ∧
    countSub "/norestart".data
      (EdrUninstaller.add_silent_flags_v1 "msiexec /x /norestart").data = 2 := by
  refine ⟨by decide, by decide, by decide⟩

/-- C7 (amended): for msiexec commands the pair `" /quiet /norestart"` is
appended iff `/quiet` is not already present case-insensitively — the
presence of `/norestart` is never checked, so it can be duplicated; for EXE
commands each of /S, /SILENT, /VERYSILENT, /q, /quiet is appended iff it
does not occur case-insensitively in the original command, and
/SUPPRESSMSGBOXES and /NORESTART are appended iff they do not occur
case-sensitively in the command as accumulated so far. -/
theorem add_silent_flags_amended (s : String) :
    (strIn "msiexec" (toLowerStr s) = true →
      ((strIn "/quiet" (toLowerStr s) = true →
          EdrUninstaller.add_silent_flags_v1 s = s) ∧
       (strIn "/quiet" (toLowerStr s) = false →
          EdrUninstaller.add_silent_flags_v1 s = s ++ " /quiet /norestart"))) ∧
    (strIn "msiexec" (toLowerStr s) = false →
      EdrUninstaller.add_silent_flags_v1 s =
        (let base := s ++ EdrUninstaller.concatAll
            (EdrUninstaller.exe_silent_flags.filter
              (fun f => !(strIn (stripStr (toLowerStr f)) (toLowerStr s))));
         let base1 := if strIn "/SUPPRESSMSGBOXES" base then base
            else base ++ " /SUPPRESSMSGBOXES";
         if strIn "/NORESTART" base1 then base1
            else base1 ++ " /NORESTART")) := by
  refine ⟨fun hmsi => ⟨fun hq => ?_, fun hq => ?_⟩, fun hmsi => ?_⟩
  · simp [EdrUninstaller.add_silent_flags_v1, hmsi, hq]
  · simp [EdrUninstaller.add_silent_flags_v1, hmsi, hq]
  · simp only [EdrUninstaller.add_silent_flags_v1, hmsi, Bool.false_eq_true, if_false]
    rw [EdrUninstaller.foldl_flags]

/-- Witness for `add_silent_flags_amended` on a concrete EXE command that
already carries `/VERYSILENT`. -/
theorem add_silent_flags_amended_witness :
    EdrUninstaller.add_silent_flags_v1 "unins000.exe /VERYSILENT" =
      "unins000.exe /VERYSILENT /S /SILENT /q /quiet /SUPPRESSMSGBOXES /NORESTART" := by
  have h := (add_silent_flags_amended "unins000.exe /VERYSILENT").2 (by decide)
  rw [h]
  decide

namespace EdrInstaller

/-- Try to match `\d+\.\d+\.\d+` at the head of the character list; on
success return the matched `major.minor.patch` text (greedy digit runs,
exactly as the regex engine matches them here). -/
def versionAt (cs : List Char) : Option String :=
  match cs.span (fun c => c.isDigit) with
  | ([], _) => none
  | (d1, '.' :: r1) =>
    match r1.span (fun c => c.isDigit) with
    | ([], _) => none
    | (d2, '.' :: r2) =>
      match r2.span (fun c => c.isDigit) with
      | ([], _) => none
      | (d3, _) => some (String.mk (d1 ++ '.' :: (d2 ++ '.' :: d3)))
    | _ => none
  | _ => none

/-- `re.search` for the version pattern: leftmost position at which
`\d+\.\d+\.\d+` matches. -/
def searchVersion : List Char → Option String
  | [] => none
  | c :: cs =>
    match versionAt (c :: cs) with
    | some v => some v
    | none => searchVersion cs

/-- `re.search(r'[_\-]d[\._\-]', ...)` for a single major-version digit `d`:
some position carries a `_`/`-`, then `d`, then one of `.`/`_`/`-`. -/
def hasMarker (d : Char) : List Char → Bool
  | a :: b :: c :: rest =>
    ((a = '_' || a = '-') && b = d && (c = '.' || c = '_' || c = '-'))
      || hasMarker d (b :: c :: rest)
  | _ => false

/-- `TehtrisEDRInstaller._detect_edr_version`: detect the EDR version from
the installer file name (lowercased), defaulting to `"2.x.x"`. -/
def detect_edr_version (installerName : String) : String :=
  let filename := (toLowerStr installerName).data
  match searchVersion filename with
  | some v => v
  | none =>
    if hasMarker '1' filename then "1.x.x"
    else if hasMarker '2' filename then "2.x.x"
    else "2.x.x"

/-- `TehtrisEDRInstaller._requires_license_key`: every version except
`1.*` requires the license key. -/
def requires_license_key (version : String) : Bool :=
  !(startsWithStr "1." version)

end EdrInstaller

/-- C10: version detection from the file name is total with default
version 2: whenever the lowercased name matches no `x.y.z` pattern and no
`_1_`/`_2_`-style major-version marker, `_detect_edr_version` returns
`"2.x.x"`; and `_requires_license_key` holds exactly when the detected
version does not start with `"1."` — so the default fills the license-key
field. -/
theorem detect_version_defaults_to_v2 (name : String)
    (hver : EdrInstaller.searchVersion (toLowerStr name).data = none)
    (h1 : EdrInstaller.hasMarker '1' (toLowerStr name).data = false)
    (h2 : EdrInstaller.hasMarker '2' (toLowerStr name).data = false) :
    EdrInstaller.detect_edr_version name = "2.x.x" ∧
    EdrInstaller.requires_license_key (EdrInstaller.detect_edr_version name) = true ∧
    (∀ v : String, EdrInstaller.requires_license_key v = !(startsWithStr "1." v)) := by
  have hdet : EdrInstaller.detect_edr_version name = "2.x.x" := by
    simp [EdrInstaller.detect_edr_version, hver, h1, h2]
  refine ⟨hdet, ?_, fun v => rfl⟩
  rw [hdet]
  decide

/-- Witness for `detect_version_defaults_to_v2` on the file name
`"TehtrisEdrSetup.msi"`, which carries neither an `x.y.z` version nor a
major-version marker. -/
theorem detect_version_defaults_to_v2_witness :
    EdrInstaller.detect_edr_version "TehtrisEdrSetup.msi" = "2.x.x" ∧
    EdrInstaller.requires_license_key
      (EdrInstaller.detect_edr_version "TehtrisEdrSetup.msi") = true :=
  ⟨(detect_version_defaults_to_v2 "TehtrisEdrSetup.msi"
      (by decide) (by decide) (by decide)).1,
   (detect_version_defaults_to_v2 "TehtrisEdrSetup.msi"
      (by decide) (by decide) (by decide)).2.1⟩

namespace EdrUninstaller

/-- `TehtrisEDRUninstaller._check_processes_stopped`: true when no running
process is named `dasc.exe` (case-insensitively). -/
def check_processes_stopped (procNames : List String) : Bool :=
  !(procNames.any (fun n => toLowerStr n == "dasc.exe"))

/-- `TehtrisEDRUninstaller._verify_v1_uninstall_result`: a V1 silent
uninstall is verified successful when the silent command's exit code is 0
or the product's process has stopped. -/
def verify_v1_uninstall_result (returncode : Int) (procNames : List String) : Bool :=
  let success_by_exitcode := returncode == 0
  let processes_stopped := check_processes_stopped procNames
  success_by_exitcode || processes_stopped

end EdrUninstaller

/-- C8: V1 post-run verification succeeds iff the silent command exited
with code 0 or no `dasc.exe` process remains — each signal alone suffices
— and it fails exactly when the exit code is non-zero and `dasc.exe` is
still found among the running processes. -/
theorem v1_verification_exitcode_or_process (returncode : Int) (procNames : List String) :
    (EdrUninstaller.verify_v1_uninstall_result returncode procNames = true ↔
      (returncode = 0 ∨ EdrUninstaller.check_processes_stopped procNames = true)) ∧
    (EdrUninstaller.verify_v1_uninstall_result returncode procNames = false ↔
      (returncode ≠ 0 ∧
        procNames.any (fun n => toLowerStr n == "dasc.exe") = true)) := by
  constructor
  · simp [EdrUninstaller.verify_v1_uninstall_result]
  · simp [EdrUninstaller.verify_v1_uninstall_result,
      EdrUninstaller.check_processes_stopped]
